import Mathlib

/-!
# Formal model of `jsleep` (github.com/thomasdesr/jsleep)

A shallow embedding of `src/jsleep.go` in Lean 4.

* Go's `time.Duration` is a signed 64-bit integer count of nanoseconds.  We
  model it as `ℤ` together with an explicit two's-complement wrap `wrap64`
  applied wherever Go's `int64` arithmetic can overflow.
* Go's `float64` is modelled by `GoFloat`: either a finite value carried as an
  exact rational (invariant: a value representable as an IEEE-754 binary64
  number), or an infinity, or NaN.  All operations round with
  `froundFinite`, an executable round-to-nearest, ties-to-even rounding of an
  arbitrary rational onto the binary64 grid (with gradual underflow and
  overflow to infinity), so every float computation of the source is mirrored
  exactly.
* `strconv.ParseFloat`, `strconv.ParseBool`, `time.ParseDuration` and the
  `flag` package argument scanner are modelled from their (documented and
  well-known) Go standard library semantics, since the program's behaviour on
  the claims depends on them.
* Randomness (`crypto/rand.Read`) is modelled by an explicit list of draws:
  each element is `some w` for a successful read of the 8 bytes encoding the
  64-bit value `w` (taken mod 2^64), or `none` for a failed read.
-/

set_option maxRecDepth 16384
set_option exponentiation.threshold 2048

deriving instance DecidableEq for Except

namespace Jsleep

/-- Error kinds.  Each constructor corresponds to one distinct `error` value
produced in `src/jsleep.go` (or by a Go standard library call it makes); the
message strings themselves carry no further information relevant here. -/
inductive Err where
  /-- `flag` package: bad flag syntax (e.g. `--=x`). -/
  | flagBadSyntax
  /-- `flag` package: flag provided but not defined. -/
  | flagNotDefined
  /-- `flag` package: `-h` / `-help` with no such flag defined (`ErrHelp`). -/
  | flagHelp
  /-- `flag` package: flag needs an argument. -/
  | flagNeedsArg
  /-- `flag` package: invalid boolean value. -/
  | flagBadBool
  /-- "too many positional arguments" -/
  | tooManyArguments
  /-- "cannot use --jitter with --range" -/
  | conflictJitterRange
  /-- "cannot specify jitter both positionally and with --jitter" -/
  | conflictPositionalNamed
  /-- "cannot use positional jitter with --range" -/
  | conflictPositionalRange
  /-- "max must be greater than or equal to min" -/
  | invalidBounds
  /-- "--range requires a base duration" -/
  | rangeRequiresBase
  /-- "jitter results overflow time.Duration" -/
  | jitterOverflow
  /-- "missing required duration" -/
  | missingDuration
  /-- "defined interval is empty after clamping" -/
  | emptyInterval
  /-- "empty duration" -/
  | emptyDuration
  /-- "invalid duration: %s" (day branch, float parse failed) -/
  | invalidDayNumber
  /-- "duration out of range: %s" (day branch) -/
  | durationOutOfRange
  /-- `time.ParseDuration`: "time: invalid duration ..." -/
  | goInvalidDuration
  /-- `time.ParseDuration`: "time: missing unit in duration ..." -/
  | goMissingUnit
  /-- `time.ParseDuration`: "time: unknown unit ..." -/
  | goUnknownUnit
  /-- "percent must end with %: %s" -/
  | percentNoSign
  /-- "invalid percent: %s" -/
  | invalidPercent
  /-- "jitter cannot be negative" -/
  | negativeJitter
  /-- "low must be less than or equal to high" -/
  | lowAboveHigh
  /-- "n must be positive" -/
  | nonPositiveN
  /-- a failed `crypto/rand.Read` call -/
  | randReadFailed
  /-- "random number generation failed after too many attempts" -/
  | randomExhausted
  deriving DecidableEq, Repr

/-! ## 64-bit integer arithmetic -/

/-- `math.MaxInt64`. -/
def maxInt64 : ℤ := 2 ^ 63 - 1

/-- `math.MinInt64`. -/
def minInt64 : ℤ := -(2 ^ 63)

/-- Two's-complement wrap of an integer into `[-2^63, 2^63)`: the result of a
Go `int64` operation whose mathematical value is `x`. -/
def wrap64 (x : ℤ) : ℤ := (x + 2 ^ 63) % 2 ^ 64 - 2 ^ 63

theorem wrap64_eq_of_range (x : ℤ) (h1 : -(2 ^ 63) ≤ x) (h2 : x < 2 ^ 63) :
    wrap64 x = x := by
  unfold wrap64
  omega

theorem wrap64_range (x : ℤ) : -(2 ^ 63) ≤ wrap64 x ∧ wrap64 x < 2 ^ 63 := by
  unfold wrap64
  constructor <;> omega

/-! ## Kernel-evaluable rational arithmetic

The `Rat` arithmetic of Batteries (`Rat.add`, `Rat.mul`, `Rat.div`, ...) is
marked `@[irreducible]`, so terms built from it cannot be evaluated by
`decide`.  `Rat.divInt` does reduce, and every rational operation below is
expressed through it; each equals the corresponding field operation of `ℚ`
as a value. -/

def qadd (a b : ℚ) : ℚ :=
  Rat.divInt (a.num * (b.den : ℤ) + b.num * (a.den : ℤ)) ((a.den : ℤ) * (b.den : ℤ))

def qneg (a : ℚ) : ℚ := Rat.neg a

def qsub (a b : ℚ) : ℚ := qadd a (qneg b)

def qmul (a b : ℚ) : ℚ := Rat.divInt (a.num * b.num) ((a.den : ℤ) * (b.den : ℤ))

def qdiv (a b : ℚ) : ℚ := Rat.divInt (a.num * (b.den : ℤ)) ((a.den : ℤ) * b.num)

def qabs (a : ℚ) : ℚ := if a.num < 0 then qneg a else a

/-- The rational `1/2` (written without the irreducible division). -/
def qhalf : ℚ := mkRat 1 2

/-! ## Rational-valued model of IEEE-754 binary64 (`float64`)

Finite doubles are exactly the rationals `± m * 2^(e-52)` with `m < 2^53`,
`-1074 ≤ e - 52` and value `< 2^1024`.  `froundFinite` sends any rational to
the nearest such value (ties to even), with overflow to infinity.  All
definitions are structurally recursive so that the kernel can evaluate them
on concrete inputs. -/

/-- Fuelled floor-log₂ helper: `natLog2F fuel n` is `⌊log₂ n⌋` for `1 ≤ n`
provided `fuel` is at least the bit length of `n`. -/
def natLog2F : ℕ → ℕ → ℕ
  | 0, _ => 0
  | f + 1, n => if 2 ≤ n then natLog2F f (n / 2) + 1 else 0

/-- `⌊log₂ n⌋` for `n ≥ 1` (uses `n` itself as more-than-enough fuel). -/
def natLog2 (n : ℕ) : ℕ := natLog2F n n

/-- `2 ^ e` as a rational, for an integer (possibly negative) exponent. -/
def qpow2 (e : ℤ) : ℚ :=
  if 0 ≤ e then ((2 ^ e.toNat : ℕ) : ℚ) else Rat.divInt 1 ((2 ^ (-e).toNat : ℕ) : ℤ)

/-- A candidate binade exponent for `a > 0`: an integer `e` with
`2 ^ e ≤ a < 2 ^ (e + 1)`. -/
def qlog2 (a : ℚ) : ℤ :=
  let L : ℤ := (natLog2 a.num.toNat : ℤ) - (natLog2 a.den : ℤ)
  if a < qpow2 L then L - 1 else if a < qpow2 (L + 1) then L else L + 1

/-- Floor of a rational, computed directly with floor integer division so
that the kernel can evaluate it (Mathlib's `⌊·⌋` does not reduce). -/
def qfloor (q : ℚ) : ℤ := Int.fdiv q.num (q.den : ℤ)

/-- Round a rational to the nearest integer, ties to even. -/
def roundNE (q : ℚ) : ℤ :=
  let f := qfloor q
  let r := qsub q (f : ℚ)
  if r < qhalf then f
  else if qhalf < r then f + 1
  else if f % 2 = 0 then f else f + 1

/-- Round a rational to the nearest integer, ties away from zero
(the semantics of Go's `math.Round`). -/
def roundAway (q : ℚ) : ℤ :=
  if 0 ≤ q then qfloor (qadd q qhalf) else -qfloor (qadd (qneg q) qhalf)

/-- Truncate a rational toward zero (the semantics of Go's float-to-integer
conversions on in-range values). -/
def truncQ (q : ℚ) : ℤ := if 0 ≤ q then qfloor q else -qfloor (qneg q)

/-- A Go `float64` value.  `finite q` carries the exact rational value of a
representable finite double; the sign of zero is not tracked (it is
irrelevant to every computation in this program). -/
inductive GoFloat where
  | finite (q : ℚ)
  | inf (neg : Bool)
  | nan
  deriving DecidableEq, Repr

namespace GoFloat

/-- Round an exact rational onto the binary64 grid: round to nearest, ties to
even, gradual underflow, overflow to infinity at `2^1024` (the IEEE-754
round-to-nearest overflow rule). -/
def froundFinite (q : ℚ) : GoFloat :=
  if q = 0 then .finite 0
  else
    let a := qabs q
    let e := max (qlog2 a) (-1022)
    let m := roundNE (qdiv a (qpow2 (e - 52)))
    let v := qmul (m : ℚ) (qpow2 (e - 52))
    if qpow2 1024 ≤ v then .inf (q < 0) else .finite (if q < 0 then qneg v else v)

def isNaN : GoFloat → Bool
  | nan => true
  | _ => false

def isInf : GoFloat → Bool
  | inf _ => true
  | _ => false

/-- IEEE-754 `<` (any comparison with NaN is false). -/
def lt : GoFloat → GoFloat → Bool
  | nan, _ => false
  | _, nan => false
  | inf true, inf true => false
  | inf true, _ => true
  | _, inf true => false
  | inf false, _ => false
  | finite _, inf false => true
  | finite x, finite y => decide (x < y)

def neg : GoFloat → GoFloat
  | finite q => finite (qneg q)
  | inf b => inf (!b)
  | nan => nan

/-- IEEE-754 addition. -/
def add : GoFloat → GoFloat → GoFloat
  | nan, _ => nan
  | _, nan => nan
  | inf a, inf b => if a = b then inf a else nan
  | inf a, finite _ => inf a
  | finite _, inf b => inf b
  | finite x, finite y => froundFinite (qadd x y)

/-- IEEE-754 subtraction. -/
def sub (x y : GoFloat) : GoFloat := add x (neg y)

/-- IEEE-754 multiplication. -/
def mul : GoFloat → GoFloat → GoFloat
  | nan, _ => nan
  | _, nan => nan
  | inf a, inf b => inf (a != b)
  | inf a, finite y => if y = 0 then nan else inf (a != decide (y < 0))
  | finite x, inf b => if x = 0 then nan else inf (b != decide (x < 0))
  | finite x, finite y => froundFinite (qmul x y)

/-- IEEE-754 division. -/
def div : GoFloat → GoFloat → GoFloat
  | nan, _ => nan
  | _, nan => nan
  | inf a, inf _ => if a then nan else nan
  | inf a, finite y => inf (a != decide (y < 0))
  | finite _, inf _ => finite 0
  | finite x, finite y =>
    if y = 0 then (if x = 0 then nan else inf (decide (x < 0)))
    else froundFinite (qdiv x y)

end GoFloat

/-- `float64(n)` for an integer `n`: conversion of an integer to a double
(round to nearest). -/
def floatOfInt (n : ℤ) : GoFloat := GoFloat.froundFinite (n : ℚ)

/-- Go's `math.Round`: round half away from zero.  The result of rounding a
finite double is always exactly representable, so no re-rounding is needed. -/
def mathRound : GoFloat → GoFloat
  | .finite q => .finite ((roundAway q : ℤ) : ℚ)
  | .inf b => .inf b
  | .nan => .nan

/-- Go conversion `int64(f)` of a `float64`: truncation toward zero when the
truncated value is representable in `int64`.  When it is not (including NaN
and infinities) the Go specification leaves the result implementation
dependent; we model the behaviour of the amd64 backend (`cvttsd2si`), which
yields `math.MinInt64` in every such case. -/
def goFloatToInt64 : GoFloat → ℤ
  | .finite q =>
    let t := truncQ q
    if t < minInt64 ∨ maxInt64 < t then minInt64 else t
  | .inf _ => minInt64
  | .nan => minInt64

/-- Go conversion `uint64(f)` of a `float64`, used by `time.ParseDuration`
only on values its own invariants keep inside `[0, 2^64)`; out-of-range
inputs (never reached there) are mapped to `2^63` mirroring amd64. -/
def goFloatToUInt64 : GoFloat → ℕ
  | .finite q =>
    let t := truncQ q
    if t < 0 ∨ (2 ^ 64 - 1 : ℤ) < t then 2 ^ 63 else t.toNat
  | .inf _ => 2 ^ 63
  | .nan => 2 ^ 63

/-! ## `strconv.ParseFloat`

Modelled from the documented Go semantics: the accepted forms are the Go
floating-point literal syntax (decimal or hexadecimal, with underscores
between digits) plus the special strings `inf`/`infinity` (optionally
signed) and `nan`, case-insensitively; a well-formed literal is converted to
the nearest binary64 value (ties to even), and a literal whose rounded
magnitude overflows to infinity is reported as a range *error* (which the
callers in `jsleep.go` treat as a parse failure).  `parseFloat` returns
`none` exactly when `strconv.ParseFloat` returns a non-nil error. -/

/-- ASCII lower-casing (Go's `lower(c) = c | ('x' - 'X')` on letters). -/
def lowerChar (c : Char) : Char :=
  if 'A' ≤ c ∧ c ≤ 'Z' then Char.ofNat (c.toNat + 32) else c

def isDigitChar (c : Char) : Bool := decide ('0' ≤ c ∧ c ≤ '9')

def isHexDigitChar (c : Char) : Bool :=
  isDigitChar c || decide ('a' ≤ lowerChar c ∧ lowerChar c ≤ 'f')

def digitVal (c : Char) : ℕ :=
  if isDigitChar c then c.toNat - '0'.toNat else ((lowerChar c).toNat - 'a'.toNat) + 10

/-- The scanning state of `strconv.underscoreOK`: `0` = start of number,
`1` = just saw a digit (or the base prefix), `2` = just saw an underscore,
`3` = just saw any other character. -/
def underscoreOKLoop (hex : Bool) : ℕ → List Char → Bool
  | saw, [] => saw ≠ 2
  | saw, c :: rest =>
    if isDigitChar c || (hex && isHexDigitChar c) then underscoreOKLoop hex 1 rest
    else if c = '_' then
      if saw = 1 then underscoreOKLoop hex 2 rest else false
    else if saw = 2 then false
    else underscoreOKLoop hex 3 rest

/-- `strconv.underscoreOK`: underscores may appear only between digits (or
right after a `0x`/`0b`/`0o` base prefix). -/
def underscoreOK (cs : List Char) : Bool :=
  let cs1 := match cs with
    | c :: rest => if c = '-' ∨ c = '+' then rest else cs
    | [] => cs
  match cs1 with
  | '0' :: p :: rest =>
    if lowerChar p = 'x' ∨ lowerChar p = 'b' ∨ lowerChar p = 'o' then
      underscoreOKLoop (lowerChar p = 'x') 1 rest
    else underscoreOKLoop false 0 cs1
  | _ => underscoreOKLoop false 0 cs1

/-- Mantissa scan (underscores already removed): accumulates all digits
exactly in base `b`, counting digits after the first dot; stops at the
second dot or at any other character.  Returns
`(mantissa, digits after dot, saw a digit, rest)`. -/
def readMant (b : ℕ) : List Char → ℕ → ℕ → Bool → Bool → ℕ × ℕ × Bool × List Char
  | [], m, fc, _, sd => (m, fc, sd, [])
  | c :: rest, m, fc, dot, sd =>
    if c = '.' then
      if dot then (m, fc, sd, c :: rest)
      else readMant b rest m fc true sd
    else if (b = 16 && isHexDigitChar c) || (b = 10 && isDigitChar c) then
      readMant b rest (m * b + digitVal c) (if dot then fc + 1 else fc) dot true
    else (m, fc, sd, c :: rest)

/-- Exponent-digit scan with the saturation of `strconv.readFloat`
(accumulation stops once the running value reaches `10000`). -/
def readExpDigits : List Char → ℕ → ℕ × List Char
  | [], e => (e, [])
  | c :: rest, e =>
    if isDigitChar c then
      readExpDigits rest (if e < 10000 then e * 10 + digitVal c else e)
    else (e, c :: rest)

def qpow10 (e : ℤ) : ℚ :=
  if 0 ≤ e then ((10 ^ e.toNat : ℕ) : ℚ) else Rat.divInt 1 ((10 ^ (-e).toNat : ℕ) : ℤ)

/-- Read a (signed, possibly empty-sign) exponent part after the marker
character; requires at least one digit.  Returns the signed (saturated)
exponent, provided the rest of the input is fully consumed. -/
def readExpPart (rest3 : List Char) : Option ℤ :=
  let sgn : ℤ × List Char := match rest3 with
    | '+' :: r => (1, r)
    | '-' :: r => (-1, r)
    | _ => (1, rest3)
  match sgn with
  | (esign, rest4) =>
    match rest4 with
    | c :: _ =>
      if isDigitChar c then
        match readExpDigits rest4 0 with
        | (e, rest5) => if rest5 = [] then some (esign * e) else none
      else none
    | [] => none

/-- Decimal float literal body: mantissa and optional `e` exponent. -/
def decCore (cs : List Char) : Option ℚ :=
  match readMant 10 cs 0 0 false false with
  | (m, fc, sd, rest2) =>
    if !sd then none
    else
      match rest2 with
      | [] => some (qdiv (m : ℚ) ((10 ^ fc : ℕ) : ℚ))
      | ec :: rest3 =>
        if lowerChar ec = 'e' then
          match readExpPart rest3 with
          | some e => some (qmul (qdiv (m : ℚ) ((10 ^ fc : ℕ) : ℚ)) (qpow10 e))
          | none => none
        else none

/-- Hexadecimal float literal body (after the `0x`): hex mantissa and
mandatory `p` binary exponent. -/
def hexCore (cs : List Char) : Option ℚ :=
  match readMant 16 cs 0 0 false false with
  | (m, fc, sd, rest2) =>
    if !sd then none
    else
      match rest2 with
      | p :: rest3 =>
        if lowerChar p = 'p' then
          match readExpPart rest3 with
          | some e => some (qmul (qdiv (m : ℚ) ((16 ^ fc : ℕ) : ℚ)) (qpow2 e))
          | none => none
        else none
      | [] => none

/-- Parse the body of a float literal (sign and underscores already removed)
into its exact rational value.  `none` on a syntax error. -/
def parseFloatCore (cs : List Char) : Option ℚ :=
  match cs with
  | '0' :: x :: rest => if lowerChar x = 'x' then hexCore rest else decCore cs
  | _ => decCore cs

/-- The special values recognised by `strconv.ParseFloat` (case-insensitive;
`inf`/`infinity` may be signed, `nan` may not). -/
def parseSpecial (cs : List Char) : Option GoFloat :=
  match cs.map lowerChar with
  | ['n', 'a', 'n'] => some .nan
  | ['i', 'n', 'f'] => some (.inf false)
  | ['+', 'i', 'n', 'f'] => some (.inf false)
  | ['-', 'i', 'n', 'f'] => some (.inf true)
  | ['i', 'n', 'f', 'i', 'n', 'i', 't', 'y'] => some (.inf false)
  | ['+', 'i', 'n', 'f', 'i', 'n', 'i', 't', 'y'] => some (.inf false)
  | ['-', 'i', 'n', 'f', 'i', 'n', 'i', 't', 'y'] => some (.inf true)
  | _ => none

/-- `strconv.ParseFloat(s, 64)`: `some f` when it returns the value `f` with
a nil error, `none` when it returns a non-nil error (syntax error, or
overflow of a finite literal to infinity, which carries `ErrRange`). -/
def parseFloat (cs : List Char) : Option GoFloat :=
  match parseSpecial cs with
  | some f => some f
  | none =>
    if underscoreOK cs then
      let (neg, cs1) : Bool × List Char := match cs with
        | '+' :: r => (false, r)
        | '-' :: r => (true, r)
        | _ => (false, cs)
      match parseFloatCore (cs1.filter (· ≠ '_')) with
      | none => none
      | some q =>
        match GoFloat.froundFinite q with
        | .finite v => some (.finite (if neg then -v else v))
        | _ => none
    else none

/-! ## `time.ParseDuration` -/

/-- The unit table of `time.ParseDuration` (values in nanoseconds; the two
two-character micro spellings are U+00B5 and U+03BC). -/
def unitLookup : List Char → Option ℕ
  | ['n', 's'] => some 1
  | ['u', 's'] => some 1000
  | ['µ', 's'] => some 1000
  | ['μ', 's'] => some 1000
  | ['m', 's'] => some 1000000
  | ['s'] => some 1000000000
  | ['m'] => some 60000000000
  | ['h'] => some 3600000000000
  | _ => none

/-- `time.leadingInt`: consume leading decimal digits into a `uint64`,
erroring (`none`) if the value would pass `2^63`. -/
def leadingInt : ℕ → List Char → Option (ℕ × List Char)
  | x, [] => some (x, [])
  | x, c :: rest =>
    if !isDigitChar c then some (x, c :: rest)
    else if 2 ^ 63 / 10 < x then none
    else
      let y := x * 10 + digitVal c
      if 2 ^ 63 < y then none else leadingInt y rest

/-- `time.leadingFraction`: consume leading decimal digits as a fraction
numerator `x` with scale `10^k`, silently ignoring digits once `x` would
overflow.  Returns `(x, k, rest)`. -/
def leadingFraction : ℕ → ℕ → Bool → List Char → ℕ × ℕ × List Char
  | x, k, _, [] => (x, k, [])
  | x, k, ov, c :: rest =>
    if !isDigitChar c then (x, k, c :: rest)
    else if ov then leadingFraction x k ov rest
    else if (2 ^ 63 - 1) / 10 < x then leadingFraction x k true rest
    else
      let y := x * 10 + digitVal c
      if 2 ^ 63 < y then leadingFraction x k true rest
      else leadingFraction y (k + 1) false rest

/-- Length of the unit token: characters up to the next `.` or digit. -/
def durUnitLen : List Char → ℕ
  | [] => 0
  | c :: rest => if c = '.' ∨ isDigitChar c then 0 else durUnitLen rest + 1

/-- The main loop of `time.ParseDuration`, accumulating the magnitude `d` as
a `uint64`.  `fuel` only pays for termination; each iteration consumes at
least one character, so `length + 1` fuel never runs out. -/
def goParseLoop : ℕ → ℕ → List Char → Except Err ℕ
  | 0, _, _ => .error .goInvalidDuration
  | _, d, [] => .ok d
  | fuel + 1, d, c :: cs =>
    if ¬(c = '.' ∨ isDigitChar c) then .error .goInvalidDuration
    else
      match leadingInt 0 (c :: cs) with
      | none => .error .goInvalidDuration
      | some (v, s1) =>
        let pre := s1.length ≠ (c :: cs).length
        let fres : ℕ × ℕ × List Char × Bool := match s1 with
          | '.' :: r =>
            match leadingFraction 0 0 false r with
            | (f, k, s2) => (f, k, s2, s2.length ≠ r.length)
          | _ => (0, 0, s1, false)
        match fres with
        | (f, k, s2, post) =>
          if ¬pre ∧ ¬post then .error .goInvalidDuration
          else
            let i := durUnitLen s2
            if i = 0 then .error .goMissingUnit
            else
              match unitLookup (s2.take i) with
              | none => .error .goUnknownUnit
              | some unit =>
                if 2 ^ 63 / unit < v then .error .goInvalidDuration
                else
                  let v1 := v * unit
                  let v2 :=
                    if 0 < f then
                      v1 + goFloatToUInt64 ((floatOfInt f).mul
                        ((floatOfInt unit).div (.finite ((10 ^ k : ℕ) : ℚ))))
                    else v1
                  if 0 < f ∧ 2 ^ 63 < v2 then .error .goInvalidDuration
                  else
                    let d1 := d + v2
                    if 2 ^ 63 < d1 then .error .goInvalidDuration
                    else goParseLoop fuel d1 (s2.drop i)

/-- `time.ParseDuration`. -/
def goParseDuration (cs : List Char) : Except Err ℤ :=
  let sgn : Bool × List Char := match cs with
    | '-' :: r => (true, r)
    | '+' :: r => (false, r)
    | _ => (false, cs)
  match sgn with
  | (neg, s) =>
    if s = ['0'] then .ok 0
    else if s = [] then .error .goInvalidDuration
    else
      match goParseLoop (s.length + 1) 0 s with
      | .error e => .error e
      | .ok d =>
        if neg then .ok (-(d : ℤ))
        else if (2 ^ 63 - 1 : ℕ) < d then .error .goInvalidDuration
        else .ok (d : ℤ)

/-! ## The `jsleep.go` parsers -/

/-- `float64(24 * time.Hour)` — exactly 86400e9, representable. -/
def hours24F : GoFloat := .finite 86400000000000

/-- `maxDays = float64(math.MaxInt64) / float64(24*time.Hour)`.  Note that
`float64(math.MaxInt64)` rounds `2^63 - 1` up to `2^63`. -/
def maxDaysF : GoFloat := (floatOfInt maxInt64).div (floatOfInt 86400000000000)

/-- Whether `unicode.IsDigit(rune(s[len(s)-1]))` holds.  The Go code indexes
the final *byte*; a byte ≥ 0x80 (any byte of a multi-byte character) maps to
a rune in U+0080..U+00FF, none of which is in category Nd, so the test is
equivalent to: the final character is an ASCII digit. -/
def lastIsAsciiDigit (cs : List Char) : Bool :=
  match cs.getLast? with
  | some c => isDigitChar c
  | none => false

/-- `parseDuration` from `src/jsleep.go`. -/
def parseDuration (str : String) : Except Err ℤ :=
  let s := str.data
  if s = [] then .error .emptyDuration
  else if s.getLast? = some 'd' then
    match parseFloat s.dropLast with
    | none => .error .invalidDayNumber
    | some num =>
      if maxDaysF.lt num ∨ num.lt maxDaysF.neg then .error .durationOutOfRange
      else .ok (goFloatToInt64 (num.mul hours24F))
  else
    goParseDuration (if lastIsAsciiDigit s then s ++ ['s'] else s)

/-- `parsePercent` from `src/jsleep.go`. -/
def parsePercent (str : String) : Except Err GoFloat :=
  let s := str.data
  if s.getLast? ≠ some '%' then .error .percentNoSign
  else
    match parseFloat s.dropLast with
    | none => .error .invalidPercent
    | some val =>
      if val.lt (.finite 0) then .error .negativeJitter
      else .ok (val.div (.finite 100))

/-! ## The `flag` package scanner

`parseArgs` registers string flags `jitter`/`j`, `range`/`r`, `min`/`m`,
`max`/`M` (the long and short spellings share one variable) and boolean
flags `verbose`/`v`, then calls `fs.Parse(args)`.  This is the standard
`flag.FlagSet` scanner: flags are consumed from the front; scanning stops at
the terminator `--`, or at the first token that is not a flag (everything
from that token on, flags included, becomes positional). -/

/-- The shared flag variables of `parseArgs` (zero value = flag absent). -/
structure FlagState where
  jitterStr : String := ""
  rangeStr : String := ""
  minStr : String := ""
  maxStr : String := ""
  verbose : Bool := false
  deriving DecidableEq, Repr

/-- `strconv.ParseBool`. -/
def parseBool : String → Option Bool
  | "1" | "t" | "T" | "true" | "TRUE" | "True" => some true
  | "0" | "f" | "F" | "false" | "FALSE" | "False" => some false
  | _ => none

def knownFlag (n : String) : Bool :=
  n = "jitter" || n = "j" || n = "range" || n = "r" || n = "min" || n = "m" ||
  n = "max" || n = "M" || n = "verbose" || n = "v"

def isBoolFlag (n : String) : Bool := n = "verbose" || n = "v"

/-- Store a string flag's value into the variable it is bound to. -/
def setFlag (st : FlagState) (name value : String) : FlagState :=
  if name = "jitter" ∨ name = "j" then { st with jitterStr := value }
  else if name = "range" ∨ name = "r" then { st with rangeStr := value }
  else if name = "min" ∨ name = "m" then { st with minStr := value }
  else { st with maxStr := value }

/-- Split a flag body at its first `=` (Go ignores an `=` at position 0,
but that shape was already rejected as bad syntax). -/
def splitAtEq : List Char → List Char × Option (List Char)
  | [] => ([], none)
  | '=' :: rest => ([], some rest)
  | c :: rest =>
    match splitAtEq rest with
    | (n, v) => (c :: n, v)

/-- One pass of `flag.(*FlagSet).parseOne`, iterated over the argument list.
Returns the final flag variables and the positional arguments. -/
def flagParse (st : FlagState) : List String → Except Err (FlagState × List String)
  | [] => .ok (st, [])
  | s :: rest =>
    match s.data with
    | '-' :: c2 :: cs2 =>
      if c2 = '-' ∧ cs2 = [] then .ok (st, rest)
      else
        let name := if c2 = '-' then cs2 else c2 :: cs2
        if name = [] ∨ name.head? = some '-' ∨ name.head? = some '=' then
          .error .flagBadSyntax
        else
          match splitAtEq name with
          | (nm, val?) =>
            let nmS := String.mk nm
            if ¬knownFlag nmS then
              if nmS = "help" ∨ nmS = "h" then .error .flagHelp
              else .error .flagNotDefined
            else if isBoolFlag nmS then
              match val? with
              | some v =>
                match parseBool (String.mk v) with
                | some b => flagParse { st with verbose := b } rest
                | none => .error .flagBadBool
              | none => flagParse { st with verbose := true } rest
            else
              match val? with
              | some v => flagParse (setFlag st nmS (String.mk v)) rest
              | none =>
                match rest with
                | v :: rest2 => flagParse (setFlag st nmS v) rest2
                | [] => .error .flagNeedsArg
    | _ => .ok (st, s :: rest)

/-! ## `parseArgs` -/

/-- `float64` of the untyped constant `math.MinInt64` (exact). -/
def minInt64F : GoFloat := .finite (-(2 ^ 63))

/-- `float64` of the untyped constant `math.MaxInt64`: `2^63 - 1` is not
representable and rounds up to `2^63`. -/
def maxInt64F : GoFloat := .finite (2 ^ 63)

/-- The percent-jitter interval computation of `parseArgs` (the `case
hasBase` branch after the jitter fraction has been resolved): float
round-trip through `baseNs ± round(baseNs * fraction)` with the overflow
guards, then conversion back to `time.Duration`. -/
def jitterInterval (base : ℤ) (fraction : GoFloat) : Except Err (ℤ × ℤ) :=
  let baseNs := floatOfInt base
  let delta := mathRound (baseNs.mul fraction)
  if delta.isNaN ∨ delta.isInf then .error .jitterOverflow
  else
    let lowNs := baseNs.sub delta
    let highNs := baseNs.add delta
    if lowNs.lt minInt64F ∨ maxInt64F.lt lowNs ∨ highNs.lt minInt64F ∨
        maxInt64F.lt highNs then
      .error .jitterOverflow
    else .ok (goFloatToInt64 lowNs, goFloatToInt64 highNs)

/-- The trailing clamp-and-check block of `parseArgs` (everything from
`if minSet { ... }` to the final return). -/
def finalize (low high : ℤ) (minSet : Bool) (minVal : ℤ) (maxSet : Bool)
    (maxVal : ℤ) (verbose : Bool) : Except Err (ℤ × ℤ × Bool) :=
  let l1 := if minSet then max low minVal else low
  let h1 := if minSet then max high minVal else high
  let l2 := if maxSet then min l1 maxVal else l1
  let h2 := if maxSet then min h1 maxVal else h1
  let l3 := max l2 0
  let h3 := max h2 0
  if h3 < l3 then .error .emptyInterval else .ok (l3, h3, verbose)

/-- `defaultJitterFraction = 0.5` (exactly representable). -/
def defaultJitterFraction : GoFloat := .finite qhalf

/-- Everything in `parseArgs` before the trailing clamp block: flag
scanning, positional-count check, conflict checks, flag value parsing,
bounds check, base parsing, and the branch computing the pre-clamp interval.
Go `int64` additions that can overflow (`base ± rangeVal`) wrap via
`wrap64`.  Returns the pre-clamp interval together with the min/max clamp
data and the verbose flag, which `parseArgs` feeds into `finalize`. -/
def resolveCore (args : List String) : Except Err (ℤ × ℤ × Bool × ℤ × Bool × ℤ × Bool) :=
  match flagParse {} args with
  | .error e => .error e
  | .ok (st, pos) =>
    if 2 < pos.length then .error .tooManyArguments
    else
      let positionalJitter := match pos with
        | [_, p] => p
        | _ => ""
      let jitterSet := st.jitterStr != ""
      let rangeSet := st.rangeStr != ""
      let minSet := st.minStr != ""
      let maxSet := st.maxStr != ""
      if jitterSet ∧ rangeSet then .error .conflictJitterRange
      else if positionalJitter ≠ "" ∧ jitterSet then .error .conflictPositionalNamed
      else if positionalJitter ≠ "" ∧ rangeSet then .error .conflictPositionalRange
      else
        match (if rangeSet then parseDuration st.rangeStr else .ok 0) with
        | .error e => .error e
        | .ok rangeVal =>
          match (if minSet then parseDuration st.minStr else .ok 0) with
          | .error e => .error e
          | .ok minVal =>
            match (if maxSet then parseDuration st.maxStr else .ok 0) with
            | .error e => .error e
            | .ok maxVal =>
              if minSet ∧ maxSet ∧ maxVal < minVal then .error .invalidBounds
              else
                match (match pos with
                  | p :: _ => (parseDuration p).map some
                  | [] => .ok none) with
                | .error e => .error e
                | .ok base? =>
                  let branch : Except Err (ℤ × ℤ) :=
                    if rangeSet then
                      match base? with
                      | none => .error .rangeRequiresBase
                      | some base =>
                        .ok (wrap64 (base - rangeVal), wrap64 (base + rangeVal))
                    else
                      match base? with
                      | some base =>
                        match (if jitterSet then parsePercent st.jitterStr
                          else if positionalJitter ≠ "" then parsePercent positionalJitter
                          else .ok defaultJitterFraction) with
                        | .error e => .error e
                        | .ok fraction => jitterInterval base fraction
                      | none =>
                        if minSet ∧ maxSet then .ok (minVal, maxVal)
                        else .error .missingDuration
                  match branch with
                  | .error e => .error e
                  | .ok (low, high) =>
                    .ok (low, high, minSet, minVal, maxSet, maxVal, st.verbose)

/-- `parseArgs` from `src/jsleep.go`: the pre-clamp resolution
(`resolveCore`) followed by the trailing clamp-and-check block
(`finalize`). -/
def parseArgs (args : List String) : Except Err (ℤ × ℤ × Bool) :=
  match resolveCore args with
  | .error e => .error e
  | .ok (low, high, minSet, minVal, maxSet, maxVal, verbose) =>
    finalize low high minSet minVal maxSet maxVal verbose

/-! ## The sampler -/

/-- The acceptance threshold of `cryptoRandInt64`:
`limit = maxUint - maxUint % uint64(n)` with `maxUint = 2^64 - 1`. -/
def acceptLimit (n : ℕ) : ℕ := (2 ^ 64 - 1) - (2 ^ 64 - 1) % n

/-- The bounded rejection-sampling loop of `cryptoRandInt64`: one list
element per iteration (`some w` = the 8 random bytes decode to `w`,
`none` = `rand.Read` failed). -/
def randLoop (n limit : ℕ) : List (Option ℕ) → Except Err ℤ
  | [] => .error .randomExhausted
  | none :: _ => .error .randReadFailed
  | some w :: rest =>
    let v := w % 2 ^ 64
    if v < limit then .ok ((v % n : ℕ) : ℤ) else randLoop n limit rest

/-- `cryptoRandInt64` from `src/jsleep.go`.  The `for range 1000` bound is
modelled by truncating the stream of draws to 1000 elements. -/
def cryptoRandInt64 (n : ℤ) (draws : List (Option ℕ)) : Except Err ℤ :=
  if n ≤ 0 then .error .nonPositiveN
  else randLoop n.toNat (acceptLimit n.toNat) (draws.take 1000)

/-- `chooseSleepDuration` from `src/jsleep.go`. -/
def chooseSleepDuration (low high : ℤ) (draws : List (Option ℕ)) :
    Except Err ℤ :=
  if high = low then .ok (max low 0)
  else if high < low then .error .lowAboveHigh
  else
    -- `width := high - low` is inlined below
    if wrap64 (low + wrap64 (high - low)) = maxInt64 then .ok high
    else
      match cryptoRandInt64 (wrap64 (wrap64 (high - low) + 1)) draws with
      | .error e => .error e
      | .ok offset => .ok (max (wrap64 (low + offset)) 0)

/-! ## Theorems -/

/-- Every successful `finalize` satisfies the interval invariant. -/
theorem finalize_ok_invariant (low high : ℤ) (minSet : Bool) (minVal : ℤ)
    (maxSet : Bool) (maxVal : ℤ) (verbose : Bool) (l h : ℤ) (v : Bool)
    (hp : finalize low high minSet minVal maxSet maxVal verbose = .ok (l, h, v)) :
    0 ≤ l ∧ l ≤ h := by
  simp only [finalize] at hp
  repeat' split at hp
  all_goals
    first
      | exact Except.noConfusion hp
      | (rename_i hlt
         simp only [Except.ok.injEq, Prod.mk.injEq] at hp
         obtain ⟨rfl, rfl, -⟩ := hp
         exact ⟨le_sup_right, not_lt.mp hlt⟩)

/-- C1: for every argument list on which `parseArgs` succeeds, the returned
interval satisfies `0 ≤ low ≤ high`; inputs that would violate this fail
with an error instead (this is the contrapositive of the same statement). -/
theorem parseArgs_ok_interval_invariant (args : List String) (l h : ℤ) (v : Bool)
    (hp : parseArgs args = .ok (l, h, v)) : 0 ≤ l ∧ l ≤ h := by
  unfold parseArgs at hp
  split at hp
  · exact Except.noConfusion hp
  · exact finalize_ok_invariant _ _ _ _ _ _ _ _ _ _ hp

/-- Witness for C1 at the argument list `["10s"]`. -/
theorem parseArgs_ok_interval_invariant_witness :
    0 ≤ (5000000000 : ℤ) ∧ (5000000000 : ℤ) ≤ 15000000000 :=
  parseArgs_ok_interval_invariant ["10s"] 5000000000 15000000000 false (by decide)

/-- A successful pass of the rejection loop returns a residue in `[0, n)`. -/
theorem randLoop_ok_range (n limit : ℕ) (ds : List (Option ℕ)) (o : ℤ)
    (hn : 0 < n) (h : randLoop n limit ds = .ok o) : 0 ≤ o ∧ o < n := by
  induction ds with
  | nil => exact Except.noConfusion h
  | cons a rest ih =>
    cases a with
    | none => exact Except.noConfusion h
    | some w =>
      simp only [randLoop] at h
      split at h
      · simp only [Except.ok.injEq] at h
        subst h
        exact ⟨Int.natCast_nonneg _, by exact_mod_cast Nat.mod_lt _ hn⟩
      · exact ih h

/-- A successful `cryptoRandInt64 n` returns a value in `[0, n)`. -/
theorem cryptoRandInt64_ok_range (n : ℤ) (ds : List (Option ℕ)) (o : ℤ)
    (h : cryptoRandInt64 n ds = .ok o) : 0 ≤ o ∧ o < n := by
  unfold cryptoRandInt64 at h
  split at h
  · exact Except.noConfusion h
  · rename_i hn
    have hr := randLoop_ok_range _ _ _ _ (by omega) h
    omega

/-- C2 (counterexample): for `low = high = -1` the sampler succeeds with
`0`, which is outside `[low, high]` and differs from the common value, so
`chooseSleepDuration` does not return a value of `[low, high]` (nor the
common endpoint) for every `low ≤ high`. -/
theorem chooseSleepDuration_negative_counterexample :
    chooseSleepDuration (-1) (-1) [] = .ok 0 ∧
    (0 : ℤ) ≠ -1 ∧ ¬((-1 : ℤ) ≤ 0 ∧ (0 : ℤ) ≤ -1) := by
  refine ⟨by decide, by decide, by decide⟩

/-- C2 (amended): for every `low ≤ high` within the `int64` range,
`chooseSleepDuration` either fails or returns `d` with
`max(low,0) ≤ d ≤ max(high,0)`, and whenever `low = high` it returns exactly
`max(low,0)` (the zero floors are what the code applies; they only differ
from the claim when an endpoint is negative). -/
theorem chooseSleepDuration_range (low high : ℤ) (draws : List (Option ℕ))
    (h1 : minInt64 ≤ low) (h2 : low ≤ high) (h3 : high ≤ maxInt64) :
    (∀ d, chooseSleepDuration low high draws = .ok d →
      max low 0 ≤ d ∧ d ≤ max high 0) ∧
    (low = high → chooseSleepDuration low high draws = .ok (max low 0)) := by
  constructor
  · intro d hd
    unfold chooseSleepDuration at hd
    split at hd
    · rename_i he
      simp only [Except.ok.injEq] at hd
      subst hd
      subst he
      exact ⟨le_refl _, le_refl _⟩
    · split at hd
      · exact Except.noConfusion hd
      · split at hd
        · rename_i he hlt hsc
          simp only [Except.ok.injEq] at hd
          subst hd
          simp only [wrap64, maxInt64, minInt64] at h1 h3 hsc ⊢
          omega
        · rename_i he hlt hsc
          split at hd
          · exact Except.noConfusion hd
          · rename_i offset hoff
            obtain ⟨ho1, ho2⟩ := cryptoRandInt64_ok_range _ _ _ hoff
            simp only [Except.ok.injEq] at hd
            subst hd
            simp only [wrap64, maxInt64, minInt64] at h1 h3 hsc ho2 ⊢
            omega
  · intro he
    unfold chooseSleepDuration
    simp [he]

/-- Witness for C2's amended theorem at `low = high = 5`. -/
theorem chooseSleepDuration_range_witness :
    chooseSleepDuration 5 5 [] = .ok (max 5 0) :=
  (chooseSleepDuration_range 5 5 [] (by decide) (by decide) (by decide)).2 rfl

/-- Multiples of `n` shifted by a residue `r < n` occur exactly `q` times
below `n * q`. -/
theorem range_filter_mod_card (n q r : ℕ) (hn : 0 < n) (hr : r < n) :
    ((Finset.range (n * q)).filter (fun x => x % n = r)).card = q := by
  have himg : (Finset.range (n * q)).filter (fun x => x % n = r) =
      (Finset.range q).image (fun i => n * i + r) := by
    ext x
    simp only [Finset.mem_filter, Finset.mem_range, Finset.mem_image]
    constructor
    · rintro ⟨hx, hmod⟩
      refine ⟨x / n, ?_, ?_⟩
      · exact (Nat.div_lt_iff_lt_mul hn).mpr (by rw [Nat.mul_comm q n]; exact hx)
      · have hdm := Nat.div_add_mod x n
        omega
    · rintro ⟨i, hi, rfl⟩
      refine ⟨?_, ?_⟩
      · calc n * i + r < n * i + n := by omega
          _ = n * (i + 1) := (Nat.mul_succ n i).symm
          _ ≤ n * q := Nat.mul_le_mul_left n hi
      · rw [Nat.mul_add_mod]
        exact Nat.mod_eq_of_lt hr
  rw [himg, Finset.card_image_of_injective _ ?_, Finset.card_range]
  intro a b hab
  simp only at hab
  exact Nat.eq_of_mul_eq_mul_left hn (by omega)

/-- C3: the acceptance threshold `limit = (2^64-1) - (2^64-1) % n` of
`cryptoRandInt64` is the largest multiple of `n` not exceeding the largest
64-bit source value, and each residue `r < n` has exactly `limit / n`
accepted preimages `v < limit` with `v % n = r`, so every offset in `[0, n)`
is produced by equally many accepted source values. -/
theorem acceptLimit_unbiased (n : ℕ) (hn : 0 < n) :
    n ∣ acceptLimit n ∧
    acceptLimit n ≤ 2 ^ 64 - 1 ∧
    (∀ m : ℕ, n ∣ m → m ≤ 2 ^ 64 - 1 → m ≤ acceptLimit n) ∧
    (∀ r : ℕ, r < n →
      ((Finset.range (acceptLimit n)).filter (fun v => v % n = r)).card =
        acceptLimit n / n) := by
  have hq : acceptLimit n = n * ((2 ^ 64 - 1) / n) :=
    (Nat.eq_sub_of_add_eq (Nat.div_add_mod (2 ^ 64 - 1) n)).symm
  refine ⟨⟨_, hq⟩, Nat.sub_le _ _, ?_, ?_⟩
  · rintro m ⟨k, rfl⟩ hm
    rw [hq]
    exact Nat.mul_le_mul_left n
      ((Nat.le_div_iff_mul_le hn).mpr (by rw [Nat.mul_comm k n]; exact hm))
  · intro r hr
    rw [hq, Nat.mul_div_cancel_left _ hn]
    exact range_filter_mod_card n _ r hn hr

/-- Witness for C3 at `n = 6` (and, for its inner quantifiers, at the
multiple `12` and the residue `3`). -/
theorem acceptLimit_unbiased_witness :
    6 ∣ acceptLimit 6 ∧ acceptLimit 6 ≤ 2 ^ 64 - 1 ∧ 12 ≤ acceptLimit 6 ∧
    ((Finset.range (acceptLimit 6)).filter (fun v => v % 6 = 3)).card =
      acceptLimit 6 / 6 := by
  have T := acceptLimit_unbiased 6 (by decide)
  exact ⟨T.1, T.2.1, T.2.2.1 12 (by decide) (by decide), T.2.2.2 3 (by decide)⟩

/-- C4 (code bug): in the absolute-range branch the additions
`base ± rangeVal` are unchecked `int64` arithmetic.  With
`base = rangeVal = 106751d = 9223286400000000000 ns`, `base + rangeVal`
exceeds `MaxInt64` and wraps to a negative value; resolution then *succeeds*
with the interval `(0, 0)` instead of failing with an error. -/
theorem rangeBranch_silent_wraparound :
    parseDuration "106751d" = .ok 9223286400000000000 ∧
    maxInt64 < 9223286400000000000 + 9223286400000000000 ∧
    parseArgs ["--range", "106751d", "106751d"] = .ok (0, 0, false) := by
  refine ⟨by decide, by decide, by decide⟩

/-- C5: with a base and no absolute range, the pre-clamp interval is
`(base - delta, base + delta)` computed in `float64` arithmetic with
`delta = math.Round(baseNs * fraction)` — stated generally over the jitter
branch, together with the concrete scenarios: default jitter 0.5 gives
`(5s, 15s)` from `10s`, and a 20% fraction (positional or named) gives
`(8s, 12s)`. -/
theorem jitter_interval_formula :
    parseArgs ["10s"] = .ok (5000000000, 15000000000, false) ∧
    parseArgs ["10s", "20%"] = .ok (8000000000, 12000000000, false) ∧
    parseArgs ["--jitter", "20%", "10s"] = .ok (8000000000, 12000000000, false) ∧
    ∀ base fraction l h, jitterInterval base fraction = .ok (l, h) →
      l = goFloatToInt64 ((floatOfInt base).sub
            (mathRound ((floatOfInt base).mul fraction))) ∧
      h = goFloatToInt64 ((floatOfInt base).add
            (mathRound ((floatOfInt base).mul fraction))) := by
  refine ⟨by decide, by decide, by decide, ?_⟩
  intro base fraction l h hj
  simp only [jitterInterval] at hj
  split at hj
  · exact Except.noConfusion hj
  · split at hj
    · exact Except.noConfusion hj
    · simp only [Except.ok.injEq, Prod.mk.injEq] at hj
      obtain ⟨rfl, rfl⟩ := hj
      exact ⟨rfl, rfl⟩

/-- Witness for C5's universal part: the jitter branch at
`base = 10s, fraction = 0.5` produces the endpoints given by the formula. -/
theorem jitter_interval_formula_witness :
    (5000000000 : ℤ) = goFloatToInt64 ((floatOfInt 10000000000).sub
        (mathRound ((floatOfInt 10000000000).mul defaultJitterFraction))) ∧
    (15000000000 : ℤ) = goFloatToInt64 ((floatOfInt 10000000000).add
        (mathRound ((floatOfInt 10000000000).mul defaultJitterFraction))) :=
  jitter_interval_formula.2.2.2 10000000000 defaultJitterFraction
    5000000000 15000000000 (by decide)

/-- C7 (counterexample): tokens outside the spec's stated duration grammar
that the claim says must fail are in fact accepted by `parseDuration`
(which delegates to Go's `time.ParseDuration`): a signed token, an `ns`
unit, and a compound token all succeed. -/
theorem parseDuration_extra_tokens :
    parseDuration "-5s" = .ok (-5000000000) ∧
    parseDuration "100ns" = .ok 100 ∧
    parseDuration "1h30m" = .ok 5400000000000 := by
  refine ⟨by decide, by decide, by decide⟩

/-- C7 (amended): `parseDuration` accepts the stated grammar only for values
inside the representable range, and beyond the stated grammar it accepts
everything `time.ParseDuration` accepts: grammar tokens succeed, an
in-grammar token whose value overflows fails, signed/`ns`/compound tokens
succeed, and malformed tokens fail. -/
theorem parseDuration_grammar :
    parseDuration "10s" = .ok 10000000000 ∧
    parseDuration "100ms" = .ok 100000000 ∧
    parseDuration "1.5h" = .ok 5400000000000 ∧
    parseDuration "2d" = .ok 172800000000000 ∧
    parseDuration "5" = .ok 5000000000 ∧
    parseDuration "3m" = .ok 180000000000 ∧
    parseDuration "0.5d" = .ok 43200000000000 ∧
    parseDuration "9999999999999999999s" = .error .goInvalidDuration ∧
    parseDuration "" = .error .emptyDuration ∧
    parseDuration "abc" = .error .goInvalidDuration ∧
    parseDuration "d" = .error .invalidDayNumber ∧
    parseDuration "5x" = .error .goUnknownUnit ∧
    parseDuration "-5s" = .ok (-5000000000) ∧
    parseDuration "100ns" = .ok 100 ∧
    parseDuration "1h30m" = .ok 5400000000000 := by
  refine ⟨by decide, by decide, by decide, by decide, by decide, by decide,
    by decide, by decide, by decide, by decide, by decide, by decide,
    by decide, by decide, by decide⟩

/-- C8 (code bug at the range-check boundary): the day token whose numeric
part is exactly `maxDays = float64(MaxInt64)/float64(24h)` — written out as
its exact decimal expansion — passes the `num > maxDays` check, its exact
nanosecond value is *below* `MaxInt64`, yet the float product rounds up to
`2^63`, whose `int64` conversion is out of range (amd64: `MinInt64`).  So
`parseDuration` silently returns garbage instead of the in-range value or an
`OutOfRange` error.  The claim's own examples do hold: `2d` and `0.5d` are
exact and `1e308d` fails. -/
theorem parseDuration_day_boundary_bug :
    parseFloat ("106751.99116730064270086586475372314453125").data =
      some (.finite (Rat.divInt 3667970486771497 34359738368)) ∧
    maxDaysF = .finite (Rat.divInt 3667970486771497 34359738368) ∧
    qmul (Rat.divInt 3667970486771497 34359738368) 86400000000000 <
      ((2 : ℚ) ^ 63) ∧
    parseDuration "106751.99116730064270086586475372314453125d" =
      .ok (-9223372036854775808) ∧
    parseDuration "2d" = .ok 172800000000000 ∧
    parseDuration "0.5d" = .ok 43200000000000 ∧
    parseDuration "1e308d" = .error .durationOutOfRange := by
  refine ⟨by decide, by decide, ?_, by decide, by decide, by decide, by decide⟩
  show Rat.blt _ _ = true
  decide

/-- C6: error precedence of `parseArgs`.  The too-many-positionals check
comes before every jitter-spec conflict; the three conflicts (named+range,
positional+named, positional+range, in source order) come before any
parsing of the `range`/`min`/`max` flag values; the `max < min` bounds check
comes before parsing the base positional token; and the clamp (with its
empty-interval check) runs last.  The universal parts hold for arbitrary
argument lists; the closed parts pin the order on concrete inputs whose
later stages are erroneous or degenerate. -/
theorem resolve_error_precedence :
    (∀ args st pos, flagParse {} args = .ok (st, pos) → 2 < pos.length →
      parseArgs args = .error .tooManyArguments) ∧
    (∀ args st pos, flagParse {} args = .ok (st, pos) → ¬2 < pos.length →
      st.jitterStr ≠ "" → st.rangeStr ≠ "" →
      parseArgs args = .error .conflictJitterRange) ∧
    (∀ args st p0 p1, flagParse {} args = .ok (st, [p0, p1]) → p1 ≠ "" →
      st.jitterStr ≠ "" → st.rangeStr = "" →
      parseArgs args = .error .conflictPositionalNamed) ∧
    (∀ args st p0 p1, flagParse {} args = .ok (st, [p0, p1]) → p1 ≠ "" →
      st.jitterStr = "" → st.rangeStr ≠ "" →
      parseArgs args = .error .conflictPositionalRange) ∧
    (∀ args st p0 mn mx, flagParse {} args = .ok (st, [p0]) →
      st.jitterStr = "" → st.rangeStr = "" →
      st.minStr ≠ "" → st.maxStr ≠ "" →
      parseDuration st.minStr = .ok mn → parseDuration st.maxStr = .ok mx →
      mx < mn → parseArgs args = .error .invalidBounds) ∧
    parseArgs ["-j", "20%", "-r", "2s", "a", "b", "c"] = .error .tooManyArguments ∧
    parseArgs ["-j", "20%", "-r", "bogus", "10s"] = .error .conflictJitterRange ∧
    parseArgs ["--min", "10s", "--max", "5s", "bogus"] = .error .invalidBounds ∧
    parseArgs ["--range", "1d", "106751d"] = .error .emptyInterval := by
  refine ⟨?_, ?_, ?_, ?_, ?_, by decide, by decide, by decide, by decide⟩
  · intro args st pos hflag hlen
    unfold parseArgs resolveCore
    rw [hflag]
    simp [hlen]
  · intro args st pos hflag hlen hj hr
    unfold parseArgs resolveCore
    rw [hflag]
    simp [hlen, hj, hr]
  · intro args st p0 p1 hflag hp hj hr
    unfold parseArgs resolveCore
    rw [hflag]
    simp [hp, hj, hr]
  · intro args st p0 p1 hflag hp hj hr
    unfold parseArgs resolveCore
    rw [hflag]
    simp [hp, hj, hr]
  · intro args st p0 mn mx hflag hj hr hmins hmaxs hmn hmx hlt
    unfold parseArgs resolveCore
    rw [hflag]
    simp [hj, hr, hmins, hmaxs, hmn, hmx, hlt]

/-- Witness for C6's first universal part: three positional tokens trigger
`TooManyArguments`. -/
theorem resolve_error_precedence_witness :
    parseArgs ["a", "b", "c"] = .error .tooManyArguments :=
  resolve_error_precedence.1 ["a", "b", "c"] {} ["a", "b", "c"]
    (by decide) (by decide)

/-- C9: `parsePercent` fails with the no-percent-sign error when the input
does not end in `%`; fails with the invalid-percent error when the prefix
does not parse as a float; fails with the negative-jitter error when the
parsed value is negative; and otherwise returns the parsed value divided by
100 (in `float64` arithmetic).  Here "non-negative" is the code's test
`¬(val < 0)`, under which NaN also passes. -/
theorem parsePercent_spec (s : String) :
    (s.data.getLast? ≠ some '%' → parsePercent s = .error .percentNoSign) ∧
    (s.data.getLast? = some '%' → parseFloat s.data.dropLast = none →
      parsePercent s = .error .invalidPercent) ∧
    (∀ v, s.data.getLast? = some '%' → parseFloat s.data.dropLast = some v →
      v.lt (.finite 0) = true → parsePercent s = .error .negativeJitter) ∧
    (∀ v, s.data.getLast? = some '%' → parseFloat s.data.dropLast = some v →
      v.lt (.finite 0) = false → parsePercent s = .ok (v.div (.finite 100))) := by
  refine ⟨?_, ?_, ?_, ?_⟩ <;> (intros; unfold parsePercent; simp [*])

/-- Witness for C9 at `"20%"`: ends with `%`, prefix parses to the double
`20`, which is non-negative, so the result is `20 / 100` as a double. -/
theorem parsePercent_spec_witness :
    parsePercent "20%" = .ok ((GoFloat.finite 20).div (.finite 100)) :=
  (parsePercent_spec "20%").2.2.2 (.finite 20) (by decide) (by decide) (by decide)

/-- C10: a named flag with an empty-string value is indistinguishable from
an absent flag: prepending `--jitter ""`, `--range ""`, `--min ""` or
`--max ""` to any argument list leaves `parseArgs` unchanged; in particular
`--jitter ""` silently applies the default ±50% jitter and `--min ""`
applies no minimum clamp. -/
theorem emptyFlagValue_ignored :
    (∀ rest, parseArgs ("--jitter" :: "" :: rest) = parseArgs rest) ∧
    (∀ rest, parseArgs ("--range" :: "" :: rest) = parseArgs rest) ∧
    (∀ rest, parseArgs ("--min" :: "" :: rest) = parseArgs rest) ∧
    (∀ rest, parseArgs ("--max" :: "" :: rest) = parseArgs rest) ∧
    parseArgs ["--jitter", "", "10s"] = .ok (5000000000, 15000000000, false) ∧
    parseArgs ["--min", "", "10s"] = .ok (5000000000, 15000000000, false) := by
  have hj : ∀ rest, flagParse {} ("--jitter" :: "" :: rest) = flagParse {} rest :=
    fun _ => rfl
  have hr : ∀ rest, flagParse {} ("--range" :: "" :: rest) = flagParse {} rest :=
    fun _ => rfl
  have hm : ∀ rest, flagParse {} ("--min" :: "" :: rest) = flagParse {} rest :=
    fun _ => rfl
  have hM : ∀ rest, flagParse {} ("--max" :: "" :: rest) = flagParse {} rest :=
    fun _ => rfl
  refine ⟨?_, ?_, ?_, ?_, by decide, by decide⟩
  · intro rest
    unfold parseArgs resolveCore
    rw [hj rest]
  · intro rest
    unfold parseArgs resolveCore
    rw [hr rest]
  · intro rest
    unfold parseArgs resolveCore
    rw [hm rest]
  · intro rest
    unfold parseArgs resolveCore
    rw [hM rest]

/-- Witness for C10 at `rest = ["10s"]`: an empty `--range` value is the
same as no `--range` flag. -/
theorem emptyFlagValue_ignored_witness :
    parseArgs ["--range", "", "10s"] = parseArgs ["10s"] :=
  emptyFlagValue_ignored.2.1 ["10s"]

end Jsleep
